import Mathlib

/-!
# Verification of the Flappy-Bird game state machine (src/src/main.ts)

This file shallowly embeds the core fold of the game (the `scan` reducer
inside `state$`, together with the obstacle manager's `isColliding` and
`resetPipes` operations from `animatePipes`) and proves properties about it.

Numbers: positions and velocities are JS numbers; all values reached by the
fold arithmetic here are exactly representable, so they are modelled as
rationals.  `lives` and `score` are integers.  The bird's fixed left x,
`Viewport.CANVAS_WIDTH * 0.3`, evaluates to exactly `180` in IEEE doubles and
is modelled as `600 * (3/10) = 180`.

The randomly drawn gap position of a freshly spawned pipe is modelled as an
oracle parameter `g` given to each fold step.
-/

namespace Flappy

/-- `Viewport.CANVAS_WIDTH` -/
def CANVAS_WIDTH : ℚ := 600

/-- `Viewport.CANVAS_HEIGHT` -/
def CANVAS_HEIGHT : ℚ := 400

/-- `Birb.WIDTH` -/
def BIRB_WIDTH : ℚ := 42

/-- `Birb.HEIGHT` -/
def BIRB_HEIGHT : ℚ := 30

/-- `Constants.PIPE_WIDTH` -/
def PIPE_WIDTH : ℚ := 50

/-- `GAP_HEIGHT` -/
def GAP_HEIGHT : ℚ := 100

/-- The bird's fixed left x coordinate, `Viewport.CANVAS_WIDTH * 0.3`. -/
def birdLeftX : ℚ := CANVAS_WIDTH * (3 / 10)

/-- The `Pipe` record: horizontal position, top of the gap, gap height, and
the `passed` flag used by scoring (the optional JS field, absent = false). -/
structure Pipe where
  x : ℚ
  gapY : ℚ
  pipeGapHeight : ℚ
  passed : Bool
  deriving Repr, DecidableEq

/-- The `State` record folded by `state$`'s `scan`. -/
structure State where
  gameEnd : Bool
  birdY : ℚ
  vy : ℚ
  lives : ℤ
  score : ℤ
  deriving Repr, DecidableEq

/-- `initialState` (and `initialBirdState`, which spreads `initialState`
with the same `birdY`/`vy`, hence is equal to it). -/
def initialState : State :=
  { gameEnd := false, birdY := 200, vy := 0, lives := 3, score := 0 }

/-- Which pipe half was hit, as returned by `isColliding`. -/
inductive Hit where
  | top
  | bottom
  deriving Repr, DecidableEq

/-- `isColliding(birdY, pipe)` from `animatePipes`: `"top"`, `"bottom"` or
`null`. -/
def isColliding (birdY : ℚ) (p : Pipe) : Option Hit :=
  let birdTop := birdY
  let birdBottom := birdY + BIRB_HEIGHT
  let birdLeft := birdLeftX
  let birdRight := birdLeft + BIRB_WIDTH
  if birdRight > p.x ∧ birdLeft < p.x + PIPE_WIDTH then
    if birdTop < p.gapY then some .top
    else if birdBottom > p.gapY + p.pipeGapHeight then some .bottom
    else none
  else none

/-- `createPipe` from `animatePipes`: a fresh pipe at the right viewport edge
with the drawn gap position `g` and the standard gap height; the optional
`passed` field is absent, i.e. false. -/
def createPipe (g : ℚ) : Pipe :=
  { x := CANVAS_WIDTH, gapY := g, pipeGapHeight := GAP_HEIGHT, passed := false }

/-- `resetPipes` from `animatePipes`: removes every active pipe and spawns
exactly one fresh pipe (`createPipe`).  `g` is the gap position drawn for the
fresh pipe. -/
def resetPipes (g : ℚ) : List Pipe :=
  [createPipe g]

/-- The events merged into `movement$`: `flap` (payload replaces the
velocity; the stream sends `-12`), `gravity` (payload is added to the
velocity; the stream sends `2`) and `restart`. -/
inductive Event where
  | flap (vy : ℚ)
  | gravity (vy : ℚ)
  | restart
  deriving Repr, DecidableEq

/-- The velocity the reducer computes for an event (the ternary chain
`event.type === "flap" ? event.vy : event.type === "gravity" ?
state.vy + event.vy : state.vy`). -/
def newVy (s : State) (e : Event) : ℚ :=
  match e with
  | .flap v => v
  | .gravity v => s.vy + v
  | .restart => s.vy

/-- The tentative bird position `state.birdY + vy` computed by the reducer. -/
def tentativeY (s : State) (e : Event) : ℚ :=
  s.birdY + newVy s e

/-- The reducer's boundary test `birdY < 0 || birdY + Birb.HEIGHT >
Viewport.CANVAS_HEIGHT`. -/
def hitsBoundary (y : ℚ) : Bool :=
  decide (y < 0) || decide (y + BIRB_HEIGHT > CANVAS_HEIGHT)

/-- Result of the reducer's pipe loop when it hits a collision and returns
early: the ghosts spawned, the remaining current-run trail, and the updated
`lives`, `gameEnd`, `score` locals. -/
structure Collided where
  ghosts : List (List ℚ)
  trail : List ℚ
  lives : ℤ
  gameEnd : Bool
  score : ℤ
  deriving Repr, DecidableEq

/-- Outcome of the reducer's `for (const { pipe } of activePipes)` loop:
either an early return on the first colliding pipe, or fall-through with the
accumulated score and the pipes with freshly set `passed` flags. -/
inductive LoopOut where
  | collided (c : Collided)
  | clean (score : ℤ) (pipes : List Pipe)
  deriving Repr, DecidableEq

/-- The loop's scoring test for one pipe:
`!pipe["passed"] && Viewport.CANVAS_WIDTH * 0.3 > pipe.x + Constants.PIPE_WIDTH`. -/
def clearsPipe (p : Pipe) : Bool :=
  !p.passed && decide (birdLeftX > p.x + PIPE_WIDTH)

/-- The reducer's pipe loop.  For each pipe in order: if `isColliding` is
truthy, spawn a ghost when the trail is non-empty and more than one life
remains, clear the trail in that case, decrement `lives`, update `gameEnd`
and return early; otherwise mark-and-score a newly passed pipe and continue.
`trail`, `lives` and `gameEnd` are the values of the reducer's locals when
the loop is entered (they are not modified by the scoring branch). -/
def pipeLoop (y : ℚ) (trail : List ℚ) (lives : ℤ) (gameEnd : Bool)
    (score : ℤ) : List Pipe → LoopOut
  | [] => .clean score []
  | p :: rest =>
    if (isColliding y p).isSome then
      let doSpawn := trail.length > 0 ∧ lives > 1
      .collided
        { ghosts := if doSpawn then [trail] else []
          trail := if doSpawn then [] else trail
          lives := lives - 1
          gameEnd := if lives - 1 ≤ 0 then true else gameEnd
          score := score }
    else
      let p1 := if clearsPipe p then { p with passed := true } else p
      let score1 := if clearsPipe p then score + 1 else score
      match pipeLoop y trail lives gameEnd score1 rest with
      | .collided c => .collided c
      | .clean s2 ps => .clean s2 (p1 :: ps)

/-- One fold step's full effect: the new `State` accumulator, the
`currentRun` trail afterwards, the active pipes afterwards, and the trails
handed to `ghostManager.spawnGhost` during the step. -/
structure StepResult where
  state : State
  trail : List ℚ
  pipes : List Pipe
  ghosts : List (List ℚ)
  deriving Repr, DecidableEq

/-- One step of the `scan` reducer in `state$`, with the shared mutable
environment (`currentRun`, `activePipes`) passed explicitly and the fresh
pipe gap drawn by any `resetPipes` call modelled by the oracle `g`. -/
def step (g : ℚ) (state : State) (currentRun : List ℚ)
    (activePipes : List Pipe) (event : Event) : StepResult :=
  match event with
  | .restart => ⟨initialState, [], resetPipes g, []⟩
  | _ =>
  if state.gameEnd then
    ⟨state, currentRun, activePipes, []⟩
  else
    let vy := newVy state event
    let birdY := state.birdY + vy
    let lives := state.lives
    let gameEnd0 := decide (state.lives ≤ 0)
    let hitB := hitsBoundary birdY
    let spawnB := hitB && (decide (currentRun.length > 0) && decide (lives > 1))
    let ghosts0 := if spawnB then [currentRun] else []
    let run1 := if spawnB then ([] : List ℚ) else currentRun
    let lives1 := if hitB then lives - 1 else lives
    let pipes1 := if hitB then resetPipes g else activePipes
    let newBirdY := if hitB then (200 : ℚ) else birdY
    let gameEnd1 := if hitB then decide (lives1 ≤ 0) else gameEnd0
    match pipeLoop newBirdY run1 lives1 gameEnd1 state.score pipes1 with
    | .collided c =>
        ⟨⟨c.gameEnd, 200, 0, c.lives, c.score⟩, c.trail, resetPipes g,
          ghosts0 ++ c.ghosts⟩
    | .clean sc ps =>
        ⟨⟨gameEnd1, newBirdY, vy, lives1, sc⟩, run1 ++ [newBirdY], ps, ghosts0⟩

/-- Whether the step for event `e` meets a qualifying collision: the
boundary test on the tentative position, or some active pipe colliding with
that position.  (After a boundary hit the pipes are reset to one fresh pipe,
which can never collide, so the pipe scan can only hit on the no-boundary
path, where it checks the tentative position against the active pipes.) -/
def collides (s : State) (pipes : List Pipe) (e : Event) : Bool :=
  hitsBoundary (tentativeY s e) ||
    pipes.any (fun p => (isColliding (tentativeY s e) p).isSome)

/-- Whether the step's pipe loop meets a collision (possible only when the
boundary test did not fire). -/
def obstacleHit (s : State) (pipes : List Pipe) (e : Event) : Bool :=
  !hitsBoundary (tentativeY s e) &&
    pipes.any (fun p => (isColliding (tentativeY s e) p).isSome)

/-! ## Lemmas about the pipe loop -/

/-- A freshly spawned pipe sits at the right viewport edge, outside the
bird's fixed horizontal span, so it can never collide. -/
theorem isColliding_createPipe (y g : ℚ) : isColliding y (createPipe g) = none := by
  simp only [isColliding, createPipe, birdLeftX, CANVAS_WIDTH, BIRB_WIDTH, PIPE_WIDTH]
  norm_num

/-- A freshly spawned pipe is not yet behind the bird, so the scoring test
fails on it. -/
theorem clearsPipe_createPipe (g : ℚ) : clearsPipe (createPipe g) = false := by
  simp only [clearsPipe, createPipe, birdLeftX, CANVAS_WIDTH, PIPE_WIDTH]
  norm_num

/-- Scanning the single fresh pipe left by `resetPipes` neither collides nor
scores: the loop falls through with the score unchanged and the fresh pipe
untouched. -/
theorem pipeLoop_resetPipes (y : ℚ) (t : List ℚ) (l : ℤ) (ge : Bool)
    (sc : ℤ) (g : ℚ) :
    pipeLoop y t l ge sc (resetPipes g) = .clean sc [createPipe g] := by
  simp only [resetPipes, pipeLoop, isColliding_createPipe y g, Option.isSome_none,
    Bool.false_eq_true, if_false, clearsPipe_createPipe g]

/-- If the pipe loop falls through (`clean`), then the score did not
decrease and no scanned pipe collided. -/
theorem pipeLoop_clean_spec (y : ℚ) (t : List ℚ) (l : ℤ) (ge : Bool) :
    ∀ (ps : List Pipe) (sc sc2 : ℤ) (ps2 : List Pipe),
      pipeLoop y t l ge sc ps = .clean sc2 ps2 →
      sc ≤ sc2 ∧ ∀ p ∈ ps, isColliding y p = none := by
  intro ps
  induction ps with
  | nil =>
    intro sc sc2 ps2 h
    rw [pipeLoop] at h
    cases h
    simp
  | cons p rest ih =>
    intro sc sc2 ps2 h
    rw [pipeLoop] at h
    by_cases hc : (isColliding y p).isSome
    · simp [hc] at h
    · simp only [hc, Bool.false_eq_true, if_false] at h
      cases hloop : pipeLoop y t l ge (if clearsPipe p then sc + 1 else sc) rest with
      | collided c => rw [hloop] at h; cases h
      | clean s2 ps' =>
        rw [hloop] at h
        cases h
        rcases ih _ _ _ hloop with ⟨hle, hnone⟩
        constructor
        · by_cases hcl : clearsPipe p = true <;> simp [hcl] at hle ⊢ <;> omega
        · intro q hq
          rw [List.mem_cons] at hq
          rcases hq with rfl | hq
          · exact Option.not_isSome_iff_eq_none.mp hc
          · exact hnone q hq

/-- If the pipe loop returns early (`collided`), then some scanned pipe
collided, exactly one life was lost, `gameEnd` was set exactly when the
remaining lives dropped to zero, a ghost was spawned from the trail exactly
when the trail was non-empty and more than one life remained, the trail was
cleared exactly in that case, and the score did not decrease. -/
theorem pipeLoop_collided_spec (y : ℚ) (t : List ℚ) (l : ℤ) (ge : Bool) :
    ∀ (ps : List Pipe) (sc : ℤ) (c : Collided),
      pipeLoop y t l ge sc ps = .collided c →
      c.lives = l - 1 ∧
      c.gameEnd = (if l - 1 ≤ 0 then true else ge) ∧
      c.ghosts = (if t.length > 0 ∧ l > 1 then [t] else []) ∧
      c.trail = (if t.length > 0 ∧ l > 1 then [] else t) ∧
      sc ≤ c.score ∧
      ∃ p ∈ ps, (isColliding y p).isSome := by
  intro ps
  induction ps with
  | nil =>
    intro sc c h
    rw [pipeLoop] at h
    cases h
  | cons p rest ih =>
    intro sc c h
    rw [pipeLoop] at h
    by_cases hc : (isColliding y p).isSome
    · simp only [hc, if_true] at h
      cases h
      refine ⟨rfl, rfl, rfl, rfl, le_refl _, p, List.mem_cons_self p rest, hc⟩
    · simp only [hc, Bool.false_eq_true, if_false] at h
      cases hloop : pipeLoop y t l ge (if clearsPipe p then sc + 1 else sc) rest with
      | collided c2 =>
        rw [hloop] at h
        cases h
        rcases ih _ _ hloop with ⟨h1, h2, h3, h4, h5, q, hq, hcol⟩
        refine ⟨h1, h2, h3, h4, ?_, q, List.mem_cons_of_mem p hq, hcol⟩
        by_cases hcl : clearsPipe p = true <;> simp [hcl] at h5 <;> omega
      | clean s2 ps' =>
        rw [hloop] at h
        cases h

/-- If no scanned pipe collides, the loop falls through, adding to the score
exactly the number of pipes newly cleared (not yet `passed` and with their
right edge left of the bird) and marking exactly those pipes `passed`. -/
theorem pipeLoop_clean_of_forall_none (y : ℚ) (t : List ℚ) (l : ℤ) (ge : Bool) :
    ∀ (ps : List Pipe) (sc : ℤ),
      (∀ p ∈ ps, isColliding y p = none) →
      pipeLoop y t l ge sc ps =
        .clean (sc + (ps.countP fun p => clearsPipe p))
          (ps.map fun p => if clearsPipe p then { p with passed := true } else p) := by
  intro ps
  induction ps with
  | nil =>
    intro sc _
    simp [pipeLoop]
  | cons p rest ih =>
    intro sc hnone
    have hp : isColliding y p = none := hnone p (List.mem_cons_self p rest)
    rw [pipeLoop]
    simp only [hp, Option.isSome_none, Bool.false_eq_true, if_false]
    rw [ih _ (fun q hq => hnone q (List.mem_cons_of_mem p hq))]
    simp only [List.countP_cons, List.map_cons]
    by_cases hcl : clearsPipe p = true
    · simp only [hcl, if_true, if_pos]
      push_cast
      ring_nf
    · simp [hcl]

/-- If some scanned pipe collides, the loop returns early. -/
theorem pipeLoop_collided_of_any (y : ℚ) (t : List ℚ) (l : ℤ) (ge : Bool)
    (sc : ℤ) (ps : List Pipe)
    (h : ps.any (fun p => (isColliding y p).isSome) = true) :
    ∃ c, pipeLoop y t l ge sc ps = .collided c := by
  cases hout : pipeLoop y t l ge sc ps with
  | collided c => exact ⟨c, rfl⟩
  | clean sc2 ps2 =>
    rcases pipeLoop_clean_spec y t l ge ps sc sc2 ps2 hout with ⟨-, hnone⟩
    rw [List.any_eq_true] at h
    rcases h with ⟨p, hp, hcol⟩
    rw [hnone p hp] at hcol
    simp at hcol

/-! ## Characterization of one fold step on each control path -/

/-- A non-restart step from a non-ended state whose tentative position fails
the boundary test: one life is lost, the bird is reset to 200 with the
computed velocity kept, the pipes are reset to one fresh pipe (which cannot
collide, so the subsequent pipe scan is harmless), a ghost is spawned from
the trail iff the trail is non-empty and more than one life remained, the
trail is cleared in that case, and the (possibly cleared) trail then gets the
reset position 200 appended. -/
theorem step_boundary (g : ℚ) (s : State) (trail : List ℚ) (pipes : List Pipe)
    (e : Event) (hnr : e ≠ Event.restart) (hend : s.gameEnd = false)
    (hb : hitsBoundary (tentativeY s e) = true) :
    step g s trail pipes e =
      ⟨⟨decide (s.lives - 1 ≤ 0), 200, newVy s e, s.lives - 1, s.score⟩,
        (if trail.length > 0 ∧ s.lives > 1 then [] else trail) ++ [200],
        [createPipe g],
        if trail.length > 0 ∧ s.lives > 1 then [trail] else []⟩ := by
  rw [tentativeY] at hb
  cases e with
  | restart => exact absurd rfl hnr
  | flap v =>
    simp only [step, hend, Bool.false_eq_true, if_false, hb, if_true, Bool.true_and,
      Bool.and_eq_true, decide_eq_true_eq]
    rw [pipeLoop_resetPipes]
  | gravity v =>
    simp only [step, hend, Bool.false_eq_true, if_false, hb, if_true, Bool.true_and,
      Bool.and_eq_true, decide_eq_true_eq]
    rw [pipeLoop_resetPipes]

theorem step_clean (g : ℚ) (s : State) (trail : List ℚ) (pipes : List Pipe)
    (e : Event) (hnr : e ≠ Event.restart) (hend : s.gameEnd = false)
    (hb : hitsBoundary (tentativeY s e) = false)
    (hnone : ∀ p ∈ pipes, isColliding (tentativeY s e) p = none) :
    step g s trail pipes e =
      ⟨⟨decide (s.lives ≤ 0), tentativeY s e, newVy s e, s.lives,
          s.score + pipes.countP (fun p => clearsPipe p)⟩,
        trail ++ [tentativeY s e],
        pipes.map (fun p => if clearsPipe p then { p with passed := true } else p),
        []⟩ := by
  rw [tentativeY] at hb hnone ⊢
  cases e with
  | restart => exact absurd rfl hnr
  | flap v =>
    simp only [step, hend, Bool.false_eq_true, if_false, hb, Bool.false_and]
    rw [pipeLoop_clean_of_forall_none _ _ _ _ pipes s.score hnone]
  | gravity v =>
    simp only [step, hend, Bool.false_eq_true, if_false, hb, Bool.false_and]
    rw [pipeLoop_clean_of_forall_none _ _ _ _ pipes s.score hnone]

theorem step_obstacle (g : ℚ) (s : State) (trail : List ℚ) (pipes : List Pipe)
    (e : Event) (hnr : e ≠ Event.restart) (hend : s.gameEnd = false)
    (hb : hitsBoundary (tentativeY s e) = false)
    (hany : pipes.any (fun p => (isColliding (tentativeY s e) p).isSome) = true) :
    ∃ sc2, s.score ≤ sc2 ∧
      step g s trail pipes e =
        ⟨⟨(if s.lives - 1 ≤ 0 then true else decide (s.lives ≤ 0)), 200, 0,
            s.lives - 1, sc2⟩,
          if trail.length > 0 ∧ s.lives > 1 then [] else trail,
          [createPipe g],
          if trail.length > 0 ∧ s.lives > 1 then [trail] else []⟩ := by
  rw [tentativeY] at hb hany
  rcases pipeLoop_collided_of_any (s.birdY + newVy s e) trail s.lives
      (decide (s.lives ≤ 0)) s.score pipes hany with ⟨c, hc⟩
  rcases pipeLoop_collided_spec _ _ _ _ pipes s.score c hc with
    ⟨h1, h2, h3, h4, h5, -⟩
  refine ⟨c.score, h5, ?_⟩
  cases e with
  | restart => exact absurd rfl hnr
  | flap v =>
    simp only [step, hend, Bool.false_eq_true, if_false, hb, Bool.false_and]
    rw [hc]
    simp only [resetPipes, h1, h2, h3, h4, List.nil_append]
  | gravity v =>
    simp only [step, hend, Bool.false_eq_true, if_false, hb, Bool.false_and]
    rw [hc]
    simp only [resetPipes, h1, h2, h3, h4, List.nil_append]

/-- A non-restart step from an ended state changes nothing: the reducer
returns its input state before touching the trail, the pipes or the ghost
manager. -/
theorem step_ended (g : ℚ) (s : State) (trail : List ℚ) (pipes : List Pipe)
    (e : Event) (hnr : e ≠ Event.restart) (hend : s.gameEnd = true) :
    step g s trail pipes e = ⟨s, trail, pipes, []⟩ := by
  cases e with
  | restart => exact absurd rfl hnr
  | flap v => simp [step, hend]
  | gravity v => simp [step, hend]

/-- Failing the boundary test means the tentative position keeps the whole
bird inside the viewport. -/
theorem hitsBoundary_eq_false (y : ℚ) :
    hitsBoundary y = false ↔ 0 ≤ y ∧ y + BIRB_HEIGHT ≤ CANVAS_HEIGHT := by
  simp [hitsBoundary, not_lt]

/-! ## Reachable states and the inductive invariant -/

/-- States reachable by the fold from the initial accumulator, under
arbitrary event sequences, arbitrary trail contents, arbitrary pipe
environments (the obstacle manager advances and spawns pipes on its own
cadence between fold steps) and arbitrary drawn gap positions.  Every state
the real fold can reach is of this form. -/
inductive Reachable : State → Prop
  | init : Reachable initialState
  | next (g : ℚ) (trail : List ℚ) (pipes : List Pipe) (e : Event) {s : State} :
      Reachable s → Reachable (step g s trail pipes e).state

/-- The inductive invariant of the fold: `gameEnd` holds exactly when no
lives remain, lives and score are non-negative, and the bird is inside the
viewport. -/
def Inv (s : State) : Prop :=
  (s.gameEnd = true ↔ s.lives ≤ 0) ∧ 0 ≤ s.lives ∧ 0 ≤ s.score ∧
    0 ≤ s.birdY ∧ s.birdY + BIRB_HEIGHT ≤ CANVAS_HEIGHT

/-- The initial state satisfies the invariant. -/
theorem inv_initialState : Inv initialState := by
  refine ⟨?_, ?_, ?_, ?_, ?_⟩ <;> norm_num [initialState, BIRB_HEIGHT, CANVAS_HEIGHT]

/-- One fold step preserves the invariant, whatever the event, the trail,
the pipe environment and the drawn gap. -/
theorem inv_step (g : ℚ) (trail : List ℚ) (pipes : List Pipe) (e : Event)
    {s : State} (h : Inv s) : Inv (step g s trail pipes e).state := by
  by_cases hnr : e = Event.restart
  · subst hnr
    have : step g s trail pipes Event.restart = ⟨initialState, [], resetPipes g, []⟩ := rfl
    rw [this]
    exact inv_initialState
  · by_cases hend : s.gameEnd = true
    · rw [step_ended g s trail pipes e hnr hend]
      exact h
    · rw [Bool.not_eq_true] at hend
      rcases h with ⟨hge, hl, hs, -, -⟩
      have hlv : 1 ≤ s.lives := by
        rcases lt_or_ge s.lives 1 with hlt | hgeq
        · exact absurd (hge.mpr (by omega)) (by simp [hend])
        · exact hgeq
      cases hhb : hitsBoundary (tentativeY s e) with
      | true =>
        rw [Inv, step_boundary g s trail pipes e hnr hend hhb]
        dsimp only
        refine ⟨by simp, by omega, hs, by norm_num, ?_⟩
        norm_num [BIRB_HEIGHT, CANVAS_HEIGHT]
      | false =>
        cases hany : pipes.any (fun p => (isColliding (tentativeY s e) p).isSome) with
        | true =>
          rcases step_obstacle g s trail pipes e hnr hend hhb hany with ⟨sc2, hsc, heq⟩
          rw [Inv, heq]
          dsimp only
          refine ⟨?_, by omega, by omega, by norm_num, ?_⟩
          · by_cases hl1 : s.lives - 1 ≤ 0
            · simp only [hl1, if_true]
            · simp only [hl1, if_false]
              simp
              omega
          · norm_num [BIRB_HEIGHT, CANVAS_HEIGHT]
        | false =>
          have hnone : ∀ p ∈ pipes, isColliding (tentativeY s e) p = none := by
            intro p hp
            have := List.any_eq_false.mp hany p hp
            exact Option.not_isSome_iff_eq_none.mp (by simpa using this)
          rw [Inv, step_clean g s trail pipes e hnr hend hhb hnone]
          dsimp only
          rcases (hitsBoundary_eq_false (tentativeY s e)).mp hhb with ⟨hy1, hy2⟩
          refine ⟨by simp, hl, ?_, hy1, hy2⟩
          have : (0 : ℤ) ≤ pipes.countP (fun p => clearsPipe p) := Int.natCast_nonneg _
          omega

/-- Every reachable state satisfies the invariant. -/
theorem reachable_inv {s : State} (h : Reachable s) : Inv s := by
  induction h with
  | init => exact inv_initialState
  | next g trail pipes e _ ih => exact inv_step g trail pipes e ih

/-! ## Claims -/

/-- C1: a restart event from any prior state (including ended ones) yields
exactly the initial state (lives 3, score 0, birdY 200, velocity 0, not
ended), clears the current run trail, leaves the obstacle set containing
exactly one freshly spawned pipe, and spawns no ghost. -/
theorem restart_resets_everything (g : ℚ) (s : State) (trail : List ℚ)
    (pipes : List Pipe) :
    step g s trail pipes Event.restart =
      ⟨{ gameEnd := false, birdY := 200, vy := 0, lives := 3, score := 0 },
        [], [createPipe g], []⟩ := rfl

/-- C2: every state reachable by the fold from the initial state satisfies
`gameEnd = true` iff `lives ≤ 0`, and in every reachable state lives and
score are non-negative. -/
theorem reachable_ended_iff_no_lives (s : State) (h : Reachable s) :
    (s.gameEnd = true ↔ s.lives ≤ 0) ∧ 0 ≤ s.lives ∧ 0 ≤ s.score := by
  rcases reachable_inv h with ⟨h1, h2, h3, -, -⟩
  exact ⟨h1, h2, h3⟩

/-- Witness for C2 at the initial state. -/
theorem reachable_ended_iff_no_lives_witness :
    Reachable initialState ∧
      ((initialState.gameEnd = true ↔ initialState.lives ≤ 0) ∧
        0 ≤ initialState.lives ∧ 0 ≤ initialState.score) :=
  ⟨Reachable.init, reachable_ended_iff_no_lives initialState Reachable.init⟩

/-- C3: one non-restart step from a non-ended state decrements `lives` by
exactly 1 when a qualifying collision occurs (the boundary test, applied
first, or some pipe colliding) and leaves `lives` unchanged otherwise —
never a double decrement, however many pipes are scanned, because a boundary
hit resets the pipes to a single fresh pipe that cannot collide. -/
theorem at_most_one_life_lost_per_step (g : ℚ) (s : State) (trail : List ℚ)
    (pipes : List Pipe) (e : Event) (hnr : e ≠ Event.restart)
    (hend : s.gameEnd = false) :
    (step g s trail pipes e).state.lives =
      if collides s pipes e = true then s.lives - 1 else s.lives := by
  cases hhb : hitsBoundary (tentativeY s e) with
  | true =>
    have hcol : collides s pipes e = true := by simp [collides, hhb]
    rw [step_boundary g s trail pipes e hnr hend hhb, hcol]
    simp
  | false =>
    cases hany : pipes.any (fun p => (isColliding (tentativeY s e) p).isSome) with
    | true =>
      have hcol : collides s pipes e = true := by simp [collides, hany]
      rcases step_obstacle g s trail pipes e hnr hend hhb hany with ⟨sc2, -, heq⟩
      rw [heq, hcol]
      simp
    | false =>
      have hcol : collides s pipes e = false := by simp [collides, hhb, hany]
      have hnone : ∀ p ∈ pipes, isColliding (tentativeY s e) p = none := by
        intro p hp
        have := List.any_eq_false.mp hany p hp
        exact Option.not_isSome_iff_eq_none.mp (by simpa using this)
      rw [step_clean g s trail pipes e hnr hend hhb hnone, hcol]
      simp

/-- Witness for C3 on an obstacle collision: a pipe overlapping the bird
with the bird above its gap costs exactly one life. -/
theorem at_most_one_life_lost_per_step_witness :
    (Event.gravity 2 ≠ Event.restart) ∧
    (State.mk false 100 0 3 0).gameEnd = false ∧
    (step 50 (State.mk false 100 0 3 0) [] [Pipe.mk 160 300 100 false]
        (Event.gravity 2)).state.lives =
      if collides (State.mk false 100 0 3 0) [Pipe.mk 160 300 100 false]
          (Event.gravity 2) = true
      then (State.mk false 100 0 3 0).lives - 1
      else (State.mk false 100 0 3 0).lives :=
  ⟨by simp, rfl,
    at_most_one_life_lost_per_step 50 (State.mk false 100 0 3 0) []
      [Pipe.mk 160 300 100 false] (Event.gravity 2) (by simp) rfl⟩

/-- C5: while `gameEnd` is true, every non-restart (flap or gravity) step is
a complete no-op: the output state equals the input state and the trail, the
pipes and the ghost list are untouched — no reset, score change, trail
append or ghost spawn; since the state (hence `gameEnd`) is unchanged, this
persists for every further non-restart event until a restart arrives. -/
theorem ended_nonrestart_is_noop (g : ℚ) (s : State) (trail : List ℚ)
    (pipes : List Pipe) (e : Event) (hnr : e ≠ Event.restart)
    (hend : s.gameEnd = true) :
    step g s trail pipes e = ⟨s, trail, pipes, []⟩ :=
  step_ended g s trail pipes e hnr hend

/-- Witness for C5: a gravity event in an ended state changes nothing. -/
theorem ended_nonrestart_is_noop_witness :
    (Event.gravity 2 ≠ Event.restart) ∧
    (State.mk true 123 4 0 7).gameEnd = true ∧
    step 50 (State.mk true 123 4 0 7) [1, 2] [Pipe.mk 300 50 100 false]
        (Event.gravity 2) =
      ⟨State.mk true 123 4 0 7, [1, 2], [Pipe.mk 300 50 100 false], []⟩ :=
  ⟨by simp, rfl,
    ended_nonrestart_is_noop 50 (State.mk true 123 4 0 7) [1, 2]
      [Pipe.mk 300 50 100 false] (Event.gravity 2) (by simp) rfl⟩

/-- C6: from the initial state with no obstacle near the bird, one gravity
event with delta +2 yields birdY 202, velocity 2, lives 3, score 0, not
ended; a following flap event with delta -12 replaces (not adds to) the
velocity, yielding velocity -12 and birdY 190. -/
theorem gravity_then_flap_scenario :
    (step 50 initialState [] [] (Event.gravity 2)).state =
      State.mk false 202 2 3 0 ∧
    (step 50 (State.mk false 202 2 3 0) [202] [] (Event.flap (-12))).state =
      State.mk false 190 (-12) 3 0 := by
  constructor
  · norm_num [step, initialState, newVy, hitsBoundary, pipeLoop, BIRB_HEIGHT,
      CANVAS_HEIGHT]
  · norm_num [step, initialState, newVy, hitsBoundary, pipeLoop, BIRB_HEIGHT,
      CANVAS_HEIGHT]

/-- C4 counterexample: from lives = 3 at birdY 395, a gravity step drives
the tentative position past the bottom edge (397 + 30 > 400) with no
obstacle around, yet the emitted state is ⟨false, 200, 2, 2, 0⟩: the
velocity keeps the computed value 2 instead of being reset to 0. -/
theorem boundary_keeps_velocity_cex :
    hitsBoundary (tentativeY (State.mk false 395 0 3 0) (Event.gravity 2)) = true ∧
    (step 50 (State.mk false 395 0 3 0) [] [] (Event.gravity 2)).state =
      State.mk false 200 2 2 0 ∧
    (2 : ℚ) ≠ 0 := by
  refine ⟨?_, ?_, by norm_num⟩
  · norm_num [hitsBoundary, tentativeY, newVy, BIRB_HEIGHT, CANVAS_HEIGHT]
  · norm_num [step, newVy, hitsBoundary, BIRB_HEIGHT, CANVAS_HEIGHT, pipeLoop,
      resetPipes, isColliding_createPipe, clearsPipe_createPipe]

/-- C4 (amended): from a non-ended state with 3 lives, a non-restart step
whose tentative position fails the boundary test (and in which no obstacle
collision can follow, the pipes having been reset to one fresh pipe) emits
lives = 2, birdY reset to 200, `ended` still false and the obstacle set
reset to exactly one freshly spawned pipe — but the velocity keeps its newly
computed value; it is reset to 0 only by obstacle collisions. -/
theorem boundary_collision_from_three_lives (g : ℚ) (s : State)
    (trail : List ℚ) (pipes : List Pipe) (e : Event)
    (hnr : e ≠ Event.restart) (hend : s.gameEnd = false) (h3 : s.lives = 3)
    (hb : hitsBoundary (tentativeY s e) = true) :
    (step g s trail pipes e).state.lives = 2 ∧
    (step g s trail pipes e).state.birdY = 200 ∧
    (step g s trail pipes e).state.vy = newVy s e ∧
    (step g s trail pipes e).state.gameEnd = false ∧
    (step g s trail pipes e).pipes = [createPipe g] := by
  rw [step_boundary g s trail pipes e hnr hend hb]
  refine ⟨by dsimp only; omega, rfl, rfl, ?_, rfl⟩
  dsimp only
  rw [h3]
  rfl

/-- Witness for the amended C4. -/
theorem boundary_collision_from_three_lives_witness :
    (Event.gravity 2 ≠ Event.restart) ∧
    (State.mk false 395 0 3 0).gameEnd = false ∧
    (State.mk false 395 0 3 0).lives = 3 ∧
    hitsBoundary (tentativeY (State.mk false 395 0 3 0) (Event.gravity 2)) = true ∧
    ((step 50 (State.mk false 395 0 3 0) [] [] (Event.gravity 2)).state.lives = 2 ∧
      (step 50 (State.mk false 395 0 3 0) [] [] (Event.gravity 2)).state.birdY = 200 ∧
      (step 50 (State.mk false 395 0 3 0) [] [] (Event.gravity 2)).state.vy =
        newVy (State.mk false 395 0 3 0) (Event.gravity 2) ∧
      (step 50 (State.mk false 395 0 3 0) [] [] (Event.gravity 2)).state.gameEnd = false ∧
      (step 50 (State.mk false 395 0 3 0) [] [] (Event.gravity 2)).pipes =
        [createPipe 50]) :=
  ⟨by simp, rfl, rfl,
    by norm_num [hitsBoundary, tentativeY, newVy, BIRB_HEIGHT, CANVAS_HEIGHT],
    boundary_collision_from_three_lives 50 (State.mk false 395 0 3 0) [] []
      (Event.gravity 2) (by simp) rfl rfl
      (by norm_num [hitsBoundary, tentativeY, newVy, BIRB_HEIGHT, CANVAS_HEIGHT])⟩

/-- C7: on a fold step with no collision, the score increases by exactly the
number of pipes newly cleared (not yet `passed`, right edge strictly left of
the bird's fixed horizontal position), each such pipe is marked `passed` in
the resulting obstacle set, and a pipe already marked `passed` can never
satisfy the scoring test on any later step — scoring is idempotent per
obstacle. -/
theorem score_increment_and_mark (g : ℚ) (s : State) (trail : List ℚ)
    (pipes : List Pipe) (e : Event) (hnr : e ≠ Event.restart)
    (hend : s.gameEnd = false)
    (hb : hitsBoundary (tentativeY s e) = false)
    (hnone : ∀ p ∈ pipes, isColliding (tentativeY s e) p = none) :
    (step g s trail pipes e).state.score =
      s.score + pipes.countP (fun p => clearsPipe p) ∧
    (step g s trail pipes e).pipes =
      pipes.map (fun p => if clearsPipe p then { p with passed := true } else p) ∧
    ∀ p : Pipe, p.passed = true → clearsPipe p = false := by
  rw [step_clean g s trail pipes e hnr hend hb hnone]
  refine ⟨rfl, rfl, ?_⟩
  intro p hp
  simp [clearsPipe, hp]

/-- Witness for C7: a single unpassed pipe behind the bird scores once and
is marked passed. -/
theorem score_increment_and_mark_witness :
    (Event.gravity 2 ≠ Event.restart) ∧
    initialState.gameEnd = false ∧
    hitsBoundary (tentativeY initialState (Event.gravity 2)) = false ∧
    ((step 50 initialState [] [Pipe.mk 100 150 100 false]
        (Event.gravity 2)).state.score =
      initialState.score +
        ([Pipe.mk 100 150 100 false].countP fun p => clearsPipe p) ∧
      (step 50 initialState [] [Pipe.mk 100 150 100 false]
          (Event.gravity 2)).pipes =
        ([Pipe.mk 100 150 100 false].map fun p =>
          if clearsPipe p then { p with passed := true } else p) ∧
      ∀ p : Pipe, p.passed = true → clearsPipe p = false) :=
  ⟨by simp, rfl,
    by norm_num [hitsBoundary, tentativeY, newVy, initialState, BIRB_HEIGHT,
      CANVAS_HEIGHT],
    score_increment_and_mark 50 initialState [] [Pipe.mk 100 150 100 false]
      (Event.gravity 2) (by simp) rfl
      (by norm_num [hitsBoundary, tentativeY, newVy, initialState, BIRB_HEIGHT,
        CANVAS_HEIGHT])
      (by
        intro p hp
        rw [List.mem_singleton.mp hp]
        norm_num [isColliding, tentativeY, newVy, initialState, birdLeftX,
          CANVAS_WIDTH, BIRB_WIDTH, PIPE_WIDTH, BIRB_HEIGHT])⟩

/-- C8: on a non-restart step from a non-ended state, a ghost is spawned
from the current run trail iff a qualifying collision (boundary or obstacle)
occurs, the trail is non-empty and more than one life remains before the
decrement — so the player still has lives after the loss and no ghost is
spawned on the terminating, game-ending loss; the spawned ghost receives a
copy of the whole trail, and the handed-off trail is cleared (on the
boundary path the subsequent recording then makes the reset position 200 the
only remaining sample). -/
theorem ghost_spawn_policy (g : ℚ) (s : State) (trail : List ℚ)
    (pipes : List Pipe) (e : Event) (hnr : e ≠ Event.restart)
    (hend : s.gameEnd = false) :
    ((step g s trail pipes e).ghosts =
      if collides s pipes e = true ∧ trail ≠ [] ∧ 1 < s.lives
      then [trail] else []) ∧
    ((collides s pipes e = true ∧ trail ≠ [] ∧ 1 < s.lives) →
      (step g s trail pipes e).trail =
        if hitsBoundary (tentativeY s e) = true then [(200 : ℚ)] else []) := by
  have hiff : (trail.length > 0 ∧ s.lives > 1) ↔ (trail ≠ [] ∧ 1 < s.lives) :=
    and_congr List.length_pos Iff.rfl
  cases hhb : hitsBoundary (tentativeY s e) with
  | true =>
    have hcol : collides s pipes e = true := by simp [collides, hhb]
    rw [step_boundary g s trail pipes e hnr hend hhb]
    dsimp only
    constructor
    · rw [hcol]
      simp only [true_and, hiff]
    · rintro ⟨-, h1, h2⟩
      have : trail.length > 0 ∧ s.lives > 1 := hiff.mpr ⟨h1, h2⟩
      simp [this]
  | false =>
    cases hany : pipes.any (fun p => (isColliding (tentativeY s e) p).isSome) with
    | true =>
      have hcol : collides s pipes e = true := by simp [collides, hany]
      rcases step_obstacle g s trail pipes e hnr hend hhb hany with ⟨sc2, -, heq⟩
      rw [heq]
      dsimp only
      constructor
      · rw [hcol]
        simp only [true_and, hiff]
      · rintro ⟨-, h1, h2⟩
        have : trail.length > 0 ∧ s.lives > 1 := hiff.mpr ⟨h1, h2⟩
        simp [this]
    | false =>
      have hcol : collides s pipes e = false := by simp [collides, hhb, hany]
      have hnone : ∀ p ∈ pipes, isColliding (tentativeY s e) p = none := by
        intro p hp
        have := List.any_eq_false.mp hany p hp
        exact Option.not_isSome_iff_eq_none.mp (by simpa using this)
      rw [step_clean g s trail pipes e hnr hend hhb hnone]
      dsimp only
      constructor
      · simp [hcol]
      · rintro ⟨hc, -, -⟩
        rw [hcol] at hc
        cases hc

/-- Witness for C8 on an obstacle collision with a non-empty trail and
three lives: the ghost receives the trail, and the trail ends up empty. -/
theorem ghost_spawn_policy_witness :
    (Event.gravity 2 ≠ Event.restart) ∧
    (State.mk false 100 0 3 0).gameEnd = false ∧
    (((step 50 (State.mk false 100 0 3 0) [100, 102] [Pipe.mk 160 300 100 false]
          (Event.gravity 2)).ghosts =
        if collides (State.mk false 100 0 3 0) [Pipe.mk 160 300 100 false]
              (Event.gravity 2) = true ∧
            ([100, 102] : List ℚ) ≠ [] ∧ 1 < (State.mk false 100 0 3 0).lives
        then [[100, 102]] else []) ∧
      ((collides (State.mk false 100 0 3 0) [Pipe.mk 160 300 100 false]
            (Event.gravity 2) = true ∧
          ([100, 102] : List ℚ) ≠ [] ∧ 1 < (State.mk false 100 0 3 0).lives) →
        (step 50 (State.mk false 100 0 3 0) [100, 102] [Pipe.mk 160 300 100 false]
            (Event.gravity 2)).trail =
          if hitsBoundary (tentativeY (State.mk false 100 0 3 0)
              (Event.gravity 2)) = true
          then [(200 : ℚ)] else [])) :=
  ⟨by simp, rfl,
    ghost_spawn_policy 50 (State.mk false 100 0 3 0) [100, 102]
      [Pipe.mk 160 300 100 false] (Event.gravity 2) (by simp) rfl⟩

/-- C9 counterexample: a step that processes a boundary collision does
append a sample to the trail.  From birdY 5 with velocity -10 and an empty
trail, gravity makes the tentative position -3 (a boundary hit), and the
emitted trail is [200] — the reset position was appended — rather than the
unchanged empty trail the claim requires. -/
theorem trail_appended_on_boundary_cex :
    hitsBoundary (tentativeY (State.mk false 5 (-10) 3 0) (Event.gravity 2)) = true ∧
    (step 50 (State.mk false 5 (-10) 3 0) [] [] (Event.gravity 2)).trail = [200] := by
  constructor
  · norm_num [hitsBoundary, tentativeY, newVy, BIRB_HEIGHT, CANVAS_HEIGHT]
  · norm_num [step, newVy, hitsBoundary, BIRB_HEIGHT, CANVAS_HEIGHT, pipeLoop,
      resetPipes, isColliding_createPipe, clearsPipe_createPipe]

/-- C9 (amended): the trail is appended exactly on steps whose pipe scan
finds no collision: an obstacle-collision step appends nothing (the trail is
either handed off and cleared or left as is), while a boundary-collision
step without obstacle collision does append the emitted reset position 200
(after the possible ghost handoff cleared it), and a collision-free step
appends the emitted birdY. -/
theorem trail_append_policy (g : ℚ) (s : State) (trail : List ℚ)
    (pipes : List Pipe) (e : Event) (hnr : e ≠ Event.restart)
    (hend : s.gameEnd = false) :
    (step g s trail pipes e).trail =
      if obstacleHit s pipes e = true then
        (if trail ≠ [] ∧ 1 < s.lives then [] else trail)
      else
        (if hitsBoundary (tentativeY s e) = true ∧ trail ≠ [] ∧ 1 < s.lives
          then [] else trail) ++ [(step g s trail pipes e).state.birdY] := by
  have hiff : (trail.length > 0 ∧ s.lives > 1) ↔ (trail ≠ [] ∧ 1 < s.lives) :=
    and_congr List.length_pos Iff.rfl
  cases hhb : hitsBoundary (tentativeY s e) with
  | true =>
    have hob : obstacleHit s pipes e = false := by simp [obstacleHit, hhb]
    rw [step_boundary g s trail pipes e hnr hend hhb, hob]
    dsimp only
    simp only [Bool.false_eq_true, if_false, hiff, true_and]
  | false =>
    cases hany : pipes.any (fun p => (isColliding (tentativeY s e) p).isSome) with
    | true =>
      have hob : obstacleHit s pipes e = true := by simp [obstacleHit, hhb, hany]
      rcases step_obstacle g s trail pipes e hnr hend hhb hany with ⟨sc2, -, heq⟩
      rw [heq, hob]
      dsimp only
      simp only [if_true, hiff]
    | false =>
      have hob : obstacleHit s pipes e = false := by simp [obstacleHit, hany]
      have hnone : ∀ p ∈ pipes, isColliding (tentativeY s e) p = none := by
        intro p hp
        have := List.any_eq_false.mp hany p hp
        exact Option.not_isSome_iff_eq_none.mp (by simpa using this)
      rw [step_clean g s trail pipes e hnr hend hhb hnone, hob]
      dsimp only
      simp [hhb]

/-- Witness for the amended C9 on an obstacle collision: nothing is
appended, the handed-off trail ends up empty. -/
theorem trail_append_policy_witness :
    (Event.gravity 2 ≠ Event.restart) ∧
    (State.mk false 100 0 3 0).gameEnd = false ∧
    (step 50 (State.mk false 100 0 3 0) [100] [Pipe.mk 160 300 100 false]
        (Event.gravity 2)).trail =
      (if obstacleHit (State.mk false 100 0 3 0) [Pipe.mk 160 300 100 false]
            (Event.gravity 2) = true then
        (if ([100] : List ℚ) ≠ [] ∧ 1 < (State.mk false 100 0 3 0).lives
          then [] else [100])
      else
        (if hitsBoundary (tentativeY (State.mk false 100 0 3 0)
              (Event.gravity 2)) = true ∧
            ([100] : List ℚ) ≠ [] ∧ 1 < (State.mk false 100 0 3 0).lives
          then [] else [100]) ++
          [(step 50 (State.mk false 100 0 3 0) [100] [Pipe.mk 160 300 100 false]
              (Event.gravity 2)).state.birdY]) :=
  ⟨by simp, rfl,
    trail_append_policy 50 (State.mk false 100 0 3 0) [100]
      [Pipe.mk 160 300 100 false] (Event.gravity 2) (by simp) rfl⟩

/-- C10: every reachable state keeps the bird inside the viewport:
0 ≤ birdY and birdY + 30 ≤ 400, i.e. birdY ∈ [0, 370]; moreover, from any
non-ended state, a step whose tentative position falls outside that range
(the boundary test fires) emits the reset position 200, so no emitted
snapshot ever places the bird outside the viewport. -/
theorem bird_always_in_viewport (s : State) (h : Reachable s) :
    (0 ≤ s.birdY ∧ s.birdY + BIRB_HEIGHT ≤ CANVAS_HEIGHT) ∧
    ∀ (g : ℚ) (trail : List ℚ) (pipes : List Pipe) (e : Event),
      s.gameEnd = false → hitsBoundary (tentativeY s e) = true →
      (step g s trail pipes e).state.birdY = 200 := by
  constructor
  · rcases reachable_inv h with ⟨-, -, -, h4, h5⟩
    exact ⟨h4, h5⟩
  · intro g trail pipes e hend hb
    by_cases hnr : e = Event.restart
    · subst hnr
      rfl
    · rw [step_boundary g s trail pipes e hnr hend hb]

/-- Witness for C10 at the initial state, with a flap payload strong enough
to leave the viewport. -/
theorem bird_always_in_viewport_witness :
    ((0 : ℚ) ≤ initialState.birdY ∧
      initialState.birdY + BIRB_HEIGHT ≤ CANVAS_HEIGHT) ∧
    initialState.gameEnd = false ∧
    hitsBoundary (tentativeY initialState (Event.flap (-250))) = true ∧
    (step 50 initialState [] [] (Event.flap (-250))).state.birdY = 200 :=
  ⟨(bird_always_in_viewport initialState Reachable.init).1, rfl,
    by norm_num [hitsBoundary, tentativeY, newVy, initialState, BIRB_HEIGHT,
      CANVAS_HEIGHT],
    (bird_always_in_viewport initialState Reachable.init).2 50 [] []
      (Event.flap (-250)) rfl
      (by norm_num [hitsBoundary, tentativeY, newVy, initialState, BIRB_HEIGHT,
        CANVAS_HEIGHT])⟩

end Flappy
